import Mathlib

/-!
block_iptables.bpf.c : the two LSM guards that police iptables rule installation

A shallow embedding of `bpf-prog/block-iptables/bpf/src/block_iptables.bpf.c`.

* C `int` values are `Int`; `u16`/`u32`/`u64` values are `Nat`, truncated with an explicit
  `% 2 ^ w` at the place where the C code stores them in a variable of that width.
* `char` bytes are `Nat`; a `char[16]` array is a `List Nat` of length 16.
* A pointer that the program only tests against `NULL` is an `Option`.
* A kernel read whose failure the program checks (`< 0`) yields an `Option` (`none` = fault).
* The pinned map `iptables_block_event_counter` is threaded through explicitly.
-/

namespace BlockIptables

/-! ## Constants (lines 12-27) -/

def EPERM : Int := 1
def IPT_SO_SET_REPLACE : Int := 64
def TASK_COMM_LEN : Nat := 16
def COMM_COUNT : Nat := 3
def IPPROTO_IP : Int := 0
def IPPROTO_IP6 : Int := 41
def AF_NETLINK : Nat := 16
def NETLINK_NETFILTER : Nat := 12
def NETLINK_MSG_COUNT : Nat := 4
def NFNL_SUBSYS_NFTABLES : Nat := 10
def NFT_MSG_NEWRULE : Nat := 6

/-- The bytes of a C string literal (without the terminator). -/
def cstr (s : String) : List Nat := s.toList.map Char.toNat

def CILIUM_AGENT : List Nat := cstr "cilium-agent"
def IP_MASQ : List Nat := cstr "ip-masq"
def AZURE_CNS : List Nat := cstr "azure-cns"

/-- Initialisation of a `char[n]` array from a string literal: the bytes, then zero fill. -/
def char_array (n : Nat) (s : List Nat) : List Nat :=
  s.take n ++ List.replicate (n - s.length) 0

/-- The local table `target_prefixes[COMM_COUNT][TASK_COMM_LEN]` of `is_allowed_parent`. -/
def target_prefixes : List (List Nat) :=
  [char_array TASK_COMM_LEN CILIUM_AGENT, char_array TASK_COMM_LEN IP_MASQ,
   char_array TASK_COMM_LEN AZURE_CNS]

/-! ## Kernel objects read by the program -/

/-- The network namespace object `struct net`; only `ns.inum` (an `unsigned int`) is read. -/
structure net where
  ns_inum : Nat

/-- The object `struct nsproxy`; only the pointer `net_ns` is read. -/
structure nsproxy where
  net_ns : Option net

/-- The parent's `task_struct`; only `comm` is read. `none`: the read of `comm` faults. -/
structure parent_task_struct where
  comm : Option (List Nat)

/-- The current task (`bpf_get_current_task()`), with the two pointers the program follows. -/
structure task_struct where
  real_parent : Option parent_task_struct
  nsproxy : Option nsproxy

/-- What the program sees besides its arguments: the current task and the load-time
constant `host_netns_inode` (a `volatile const u64` written by the loader). -/
structure bpf_env where
  task : task_struct
  host_netns_inode : Nat

/-- The value `host_netns_inode` has in the object file (line 30). -/
def host_netns_inode_default : Nat := 4026531840

/-- The map `iptables_block_event_counter`: two `u64` slots, keys 0 and 1.
`none` is a slot for which `bpf_map_lookup_elem` returns `NULL`. -/
structure event_counter_map where
  slot0 : Option Nat
  slot1 : Option Nat
deriving DecidableEq, Repr

def bpf_map_lookup_elem (m : event_counter_map) (key : Nat) : Option Nat :=
  if key = 0 then m.slot0 else if key = 1 then m.slot1 else none

def bpf_map_update_elem (m : event_counter_map) (key : Nat) (value : Nat) : event_counter_map :=
  if key = 0 then { m with slot0 := some value }
  else if key = 1 then { m with slot1 := some value }
  else m

/-- The number a reader of the map sees under `key`; a slot never written reads as 0. -/
def counter_value (m : event_counter_map) (key : Nat) : Nat :=
  (bpf_map_lookup_elem m key).getD 0

/-- Kernel helper `bpf_core_read_str(dst, size, src)` into a zero-initialised `dst`:
copies the bytes of the string at `src` up to its terminator, at most `size - 1` of them,
and terminates it; the rest of `dst` keeps its zeros. `none`: the read faults (`< 0`). -/
def bpf_core_read_str (size : Nat) (src : Option (List Nat)) : Option (List Nat) :=
  src.map fun s =>
    let str := (s.takeWhile (fun c => c != 0)).take (size - 1)
    str ++ List.replicate (size - str.length) 0

/-! ## `is_allowed_parent` (lines 42-77) -/

/-- The inner loop `for (i; i < TASK_COMM_LEN && target_prefixes[p][i] != 0; i++)`,
started at index `i` with `fuel = TASK_COMM_LEN - i`; the result is `match`. -/
def comm_match_loop (parent_comm target : List Nat) : Nat → Nat → Bool
  | 0, _ => true
  | fuel + 1, i =>
    if target.getD i 0 = 0 then true
    else if parent_comm.getD i 0 ≠ target.getD i 0 then false
    else comm_match_loop parent_comm target fuel (i + 1)

/-- The outer loop `for (p; p < COMM_COUNT; p++)`, started at `p` with
`fuel = COMM_COUNT - p`; falling out of the loop is `return 0`. -/
def prefix_loop (parent_comm : List Nat) : Nat → Nat → Bool
  | 0, _ => false
  | fuel + 1, p =>
    if comm_match_loop parent_comm (target_prefixes.getD p []) TASK_COMM_LEN 0 then true
    else prefix_loop parent_comm fuel (p + 1)

def is_allowed_parent (env : bpf_env) : Bool :=
  match env.task.real_parent with
  | none => false
  | some parent_task =>
    match bpf_core_read_str TASK_COMM_LEN parent_task.comm with
    | none => false
    | some parent_comm => prefix_loop parent_comm COMM_COUNT 0

/-! ## `is_host_ns` (lines 82-103) -/

def is_host_ns (env : bpf_env) : Bool :=
  match env.task.nsproxy with
  | none => false
  | some nsproxy =>
    match nsproxy.net_ns with
    | none => false
    | some net_ns =>
      let netns_ino := net_ns.ns_inum % 2 ^ 32
      if netns_ino ≠ env.host_netns_inode % 2 ^ 64 then false else true

/-! ## `increment_event_counter` (lines 107-118) -/

def increment_event_counter (m : event_counter_map) (isAllow : Bool) : event_counter_map :=
  let key : Nat := if isAllow then 1 else 0
  match bpf_map_lookup_elem m key with
  | some value => bpf_map_update_elem m key ((value + 1) % 2 ^ 64)
  | none => bpf_map_update_elem m key 1

/-! ## `iptables_legacy_block` (lines 121-146) -/

/-- The argument `struct socket *sock`: the hook only tests it against `NULL`. -/
abbrev socket := Unit

def iptables_legacy_block (env : bpf_env) (m : event_counter_map)
    (sock : Option socket) (level optname : Int) : Int × event_counter_map :=
  if sock = none then (0, m)
  else if level = IPPROTO_IP ∨ level = IPPROTO_IP6 then
    if optname = IPT_SO_SET_REPLACE then
      if is_host_ns env then
        if !is_allowed_parent env then (-EPERM, increment_event_counter m false)
        else (0, increment_event_counter m true)
      else (0, m)
    else (0, m)
  else (0, m)

/-! ## `iptables_nftables_block` (lines 149-225) -/

/-- The argument `struct sock *sk`, with the two fields the hook copies out with
`bpf_probe_read_kernel` without checking the result (`none`: the copy faults and the
helper leaves zeros in the destination). -/
structure sock where
  sk_family : Option Nat
  sk_protocol : Option Nat

/-- The netlink record header `struct nlmsghdr` (16 bytes). -/
structure nlmsghdr where
  nlmsg_len : Nat
  nlmsg_type : Nat
  nlmsg_flags : Nat
  nlmsg_seq : Nat
  nlmsg_pid : Nat
deriving DecidableEq, Repr

/-- The argument `struct sk_buff *skb` as the hook reads it.
* `data`: result of `bpf_core_read` of `skb->data` (`none` = fault, `some 0` = `NULL`);
* `len`: result of `bpf_core_read` of `skb->len` (`none` = fault);
* `mem o`: result of `bpf_probe_read_kernel` of 16 bytes at address `skb->data + o`
  (`none` = fault). The cursor of the scan is kept as this offset `o`; the pointer addition
  `data + nlmsg_len` is an addition of offsets (at most four `u32` advances, not wrapped). -/
structure sk_buff where
  data : Option Nat
  len : Option Nat
  mem : Nat → Option nlmsghdr

/-- Result of one run of the netlink guard: the return value, the counter map afterwards and,
as a ghost log, the offsets (from `skb->data`) of the header reads it issued, in order. -/
structure nl_result where
  ret : Int
  counters : event_counter_map
  reads : List Nat
deriving DecidableEq, Repr

/-- The condition of line 206 on a header: `subsys_id == NFNL_SUBSYS_NFTABLES` and
`cmd == NFT_MSG_NEWRULE`, with `subsys_id`, `cmd` computed as in lines 201-203. -/
def is_newrule (nlh : nlmsghdr) : Prop :=
  ((nlh.nlmsg_type % 2 ^ 16) >>> 8) % 2 ^ 8 = NFNL_SUBSYS_NFTABLES ∧
    ((nlh.nlmsg_type % 2 ^ 16) &&& 0xFF) % 2 ^ 8 = NFT_MSG_NEWRULE

instance (nlh : nlmsghdr) : Decidable (is_newrule nlh) := by
  unfold is_newrule; infer_instance

/-- The loop of lines 192-222, with `fuel = NETLINK_MSG_COUNT - i` iterations left,
the cursor `data` (as an offset from `skb->data`) and the remaining length `skb_len`. -/
def nl_scan (env : bpf_env) (mem : Nat → Option nlmsghdr) :
    Nat → Nat → Nat → event_counter_map → List Nat → nl_result
  | 0, _, _, m, reads => ⟨0, m, reads⟩
  | fuel + 1, data, skb_len, m, reads =>
    if skb_len < 16 then ⟨0, m, reads⟩
    else
      match mem data with
      | none => ⟨0, m, reads ++ [data]⟩
      | some nlh =>
        let type := nlh.nlmsg_type % 2 ^ 16
        let subsys_id := (type >>> 8) % 2 ^ 8
        let cmd := (type &&& 0xFF) % 2 ^ 8
        let nlmsg_len := nlh.nlmsg_len % 2 ^ 32
        if subsys_id = NFNL_SUBSYS_NFTABLES ∧ cmd = NFT_MSG_NEWRULE then
          if is_allowed_parent env then ⟨0, increment_event_counter m true, reads ++ [data]⟩
          else ⟨-EPERM, increment_event_counter m false, reads ++ [data]⟩
        else
          nl_scan env mem fuel (data + nlmsg_len) ((skb_len + 2 ^ 32 - nlmsg_len) % 2 ^ 32) m
            (reads ++ [data])

def iptables_nftables_block (env : bpf_env) (m : event_counter_map)
    (sk : Option sock) (skb : Option sk_buff) : nl_result :=
  match sk, skb with
  | none, _ => ⟨0, m, []⟩
  | _, none => ⟨0, m, []⟩
  | some sk, some skb =>
    let family := (sk.sk_family.getD 0) % 2 ^ 16
    if family ≠ AF_NETLINK then ⟨0, m, []⟩
    else
      let proto := (sk.sk_protocol.getD 0) % 2 ^ 16
      if proto ≠ NETLINK_NETFILTER then ⟨0, m, []⟩
      else if !is_host_ns env then ⟨0, m, []⟩
      else
        match skb.data with
        | none => ⟨0, m, []⟩
        | some data =>
          if data = 0 then ⟨0, m, []⟩
          else
            match skb.len with
            | none => ⟨0, m, []⟩
            | some len =>
              let skb_len := len % 2 ^ 32
              nl_scan env skb.mem NETLINK_MSG_COUNT 0 skb_len m []

/-! ## Vocabulary of the statements -/

/-- The three compiled-in trusted identities, as byte strings. -/
def trusted_identities : List (List Nat) := [CILIUM_AGENT, IP_MASQ, AZURE_CNS]

/-- A task in the host namespace (the namespace inode equals the configured identifier)
whose parent is called `name`; used for the concrete instances below. -/
def host_env (name : List Nat) : bpf_env :=
  ⟨⟨some ⟨some name⟩, some ⟨some ⟨host_netns_inode_default⟩⟩⟩, host_netns_inode_default⟩

/-- A task outside the host namespace whose parent is called `name`. -/
def container_env (name : List Nat) : bpf_env :=
  ⟨⟨some ⟨some name⟩, some ⟨some ⟨4026532001⟩⟩⟩, host_netns_inode_default⟩

/-- A header with the given length and type fields, the other fields zero. -/
def hdr (nlmsg_len nlmsg_type : Nat) : nlmsghdr := ⟨nlmsg_len, nlmsg_type, 0, 0, 0⟩

/-- Kernel memory given by the headers found at the listed offsets; every other read faults. -/
def mem_of (l : List (Nat × nlmsghdr)) : Nat → Option nlmsghdr := fun o => l.lookup o

/-- A netfilter netlink socket. -/
def nfnl_sock : sock := ⟨some AF_NETLINK, some NETLINK_NETFILTER⟩

/-- A 100-byte buffer with four 16-byte records of type 16 (a batch-begin message) followed,
in fifth position at offset 64, by a 20-byte nftables new-rule record (type 10 * 256 + 6). -/
def skb_newrule_fifth : sk_buff :=
  ⟨some 1, some 100,
    mem_of [(0, hdr 16 16), (16, hdr 16 16), (32, hdr 16 16), (48, hdr 16 16), (64, hdr 20 2566)]⟩

/-- A 40-byte buffer: a 20-byte record of type 16, then a 20-byte nftables new-rule record. -/
def skb_newrule_second : sk_buff :=
  ⟨some 1, some 40, mem_of [(0, hdr 20 16), (20, hdr 20 2566)]⟩

/-- A buffer of declared length 20 whose only record (type 16) declares a length of 24, four
bytes more than the buffer; the kernel memory behind the buffer, at offset 24, is readable and
holds bytes that parse as a header with the given fields. -/
def skb_overlong_record (len_behind type_behind : Nat) : sk_buff :=
  ⟨some 1, some 20, mem_of [(0, hdr 24 16), (24, hdr len_behind type_behind)]⟩

/-- Whether the bytes at offset `o` can be read and parse as an nftables new-rule header. -/
def newrule_at (mem : Nat → Option nlmsghdr) (o : Nat) : Bool :=
  match mem o with
  | some nlh => decide (is_newrule nlh)
  | none => false

/-- Whether one of the header reads logged in `reads` found an nftables new-rule header. -/
def reads_newrule (skb : Option sk_buff) (reads : List Nat) : Bool :=
  match skb with
  | none => false
  | some s => reads.any (newrule_at s.mem)

/-- A task in the host namespace whose `real_parent` pointer is `NULL`. -/
def orphan_host_env : bpf_env :=
  ⟨⟨none, some ⟨some ⟨host_netns_inode_default⟩⟩⟩, host_netns_inode_default⟩

/-- One invocation of one of the two guards, with the task context it runs in. -/
inductive invocation where
  | legacy (env : bpf_env) (sock : Option socket) (level optname : Int)
  | nftables (env : bpf_env) (sk : Option sock) (skb : Option sk_buff)

/-- Run one invocation on the counter map `m`: the return value and the map afterwards. -/
def invoke (m : event_counter_map) : invocation → Int × event_counter_map
  | .legacy env sock level optname => iptables_legacy_block env m sock level optname
  | .nftables env sk skb =>
    ((iptables_nftables_block env m sk skb).ret, (iptables_nftables_block env m sk skb).counters)

/-- Run a finite sequence of invocations one after the other, threading the counter map. -/
def run_sequence (m : event_counter_map) : List invocation → event_counter_map
  | [] => m
  | inv :: rest => run_sequence (invoke m inv).2 rest

/-- The terminal decision of an invocation, when the ancestry verifier takes one:
`some true` = Allowed, `some false` = Denied, `none` = pass-through. The legacy guard consults
the verifier on a host-namespace replace-ruleset call with a socket; the netlink guard consults
it when one of the headers it reads is a new-rule header. -/
def verifier_verdict : invocation → Option Bool
  | .legacy env sock level optname =>
    if sock ≠ none ∧ (level = IPPROTO_IP ∨ level = IPPROTO_IP6) ∧ optname = IPT_SO_SET_REPLACE ∧
        is_host_ns env = true
    then some (is_allowed_parent env) else none
  | .nftables env sk skb =>
    if reads_newrule skb (iptables_nftables_block env ⟨none, none⟩ sk skb).reads = true
    then some (is_allowed_parent env) else none

/-- The number of invocations of the sequence that end in the terminal decision `b`. -/
def verdict_count (b : Bool) (l : List invocation) : Nat :=
  (l.filter fun inv => verifier_verdict inv == some b).length

/-- Both slots of the map hold unsigned 64-bit values. -/
def u64_slots (m : event_counter_map) : Prop :=
  counter_value m 0 < 2 ^ 64 ∧ counter_value m 1 < 2 ^ 64

/-- Five invocations: a denied and an allowed legacy call in the host namespace, a netlink
send from a container (pass-through), a denied netlink send in the host namespace, and a legacy
call with another option name (pass-through). -/
def sample_sequence : List invocation :=
  [.legacy (host_env (cstr "bash")) (some ()) 0 64,
   .legacy (host_env (cstr "azure-cns")) (some ()) 41 64,
   .nftables (container_env (cstr "bash")) (some nfnl_sock) (some skb_newrule_second),
   .nftables (host_env (cstr "bash")) (some nfnl_sock) (some skb_newrule_second),
   .legacy (host_env (cstr "bash")) (some ()) 0 65]

/-- A 36-byte buffer whose first record (type 16) declares a total length of 0 and is
followed, at offset 16, by a 20-byte nftables new-rule record. -/
def skb_zero_length_first : sk_buff :=
  ⟨some 1, some 36, mem_of [(0, hdr 0 16), (16, hdr 20 2566)]⟩

/-! ## The ancestry verifier: the comparison loop is a prefix test -/

theorem comm_match_loop_cons (b t : Nat) (buf tgt : List Nat) (fuel i : Nat) :
    comm_match_loop (b :: buf) (t :: tgt) fuel (i + 1) = comm_match_loop buf tgt fuel i := by
  induction fuel generalizing i with
  | zero => rfl
  | succ f ih => simp only [comm_match_loop, List.getD_cons_succ, ih]

theorem comm_match_loop_iff (id : List Nat) (hid : ∀ c ∈ id, c ≠ 0) (rest : List Nat)
    (hrest : rest.getD 0 0 = 0) (buf : List Nat) (fuel : Nat) (hfuel : id.length < fuel) :
    comm_match_loop buf (id ++ rest) fuel 0 = true ↔ id <+: buf := by
  induction id generalizing buf fuel with
  | nil =>
    obtain ⟨f, rfl⟩ : ∃ f, fuel = f + 1 := ⟨fuel - 1, by simp at hfuel; omega⟩
    simp only [comm_match_loop, List.nil_append, hrest, if_true, List.nil_prefix]
  | cons c cs ih =>
    obtain ⟨f, rfl⟩ : ∃ f, fuel = f + 1 := ⟨fuel - 1, by simp at hfuel; omega⟩
    have hc : c ≠ 0 := hid c (by simp)
    have hcs : ∀ x ∈ cs, x ≠ 0 := fun x hx => hid x (by simp [hx])
    have hf : cs.length < f := by simp at hfuel; omega
    cases buf with
    | nil => simp [comm_match_loop, hc, Ne.symm hc]
    | cons b bs =>
      by_cases hbc : b = c
      · subst hbc
        simp [comm_match_loop, hc, comm_match_loop_cons, ih hcs bs f hf]
      · have : ¬ c = b := fun h => hbc h.symm
        simp [comm_match_loop, hc, hbc, List.cons_prefix_cons, this]

theorem prefix_read_str_iff (id : List Nat) (hid : ∀ c ∈ id, c ≠ 0) (s : List Nat) (n k : Nat)
    (hn : id.length ≤ n) :
    id <+: (s.takeWhile (fun c => c != 0)).take n ++ List.replicate k 0 ↔ id <+: s := by
  induction id generalizing s n with
  | nil => simp
  | cons c cs ih =>
    obtain ⟨n', rfl⟩ : ∃ n', n = n' + 1 := ⟨n - 1, by simp at hn; omega⟩
    have hc : c ≠ 0 := hid c (by simp)
    have hcs : ∀ x ∈ cs, x ≠ 0 := fun x hx => hid x (by simp [hx])
    have hn' : cs.length ≤ n' := by simp at hn; omega
    have hz : ¬ (c :: cs <+: List.replicate k 0) := by
      cases k with
      | zero => simp
      | succ k' => simp [List.replicate_succ, List.cons_prefix_cons, hc]
    cases s with
    | nil => simpa using hz
    | cons b bs =>
      by_cases hb : b = 0
      · subst hb
        have : ¬ c = 0 := hc
        simpa [List.cons_prefix_cons, this] using hz
      · have hb' : (b != 0) = true := by simpa using hb
        rw [List.takeWhile_cons_of_pos (p := fun c => c != 0) hb']
        simp [List.cons_prefix_cons, ih hcs bs n' hn']



theorem prefix_loop_iff (buf : List Nat) :
    prefix_loop buf COMM_COUNT 0 = true ↔ ∃ id ∈ trusted_identities, id <+: buf := by
  have h0 := comm_match_loop_iff CILIUM_AGENT (by decide) (List.replicate 4 0) (by decide)
    buf 16 (by decide)
  have h1 := comm_match_loop_iff IP_MASQ (by decide) (List.replicate 9 0) (by decide)
    buf 16 (by decide)
  have h2 := comm_match_loop_iff AZURE_CNS (by decide) (List.replicate 7 0) (by decide)
    buf 16 (by decide)
  have e0 : target_prefixes.getD 0 [] = CILIUM_AGENT ++ List.replicate 4 0 := by decide
  have e1 : target_prefixes.getD 1 [] = IP_MASQ ++ List.replicate 9 0 := by decide
  have e2 : target_prefixes.getD 2 [] = AZURE_CNS ++ List.replicate 7 0 := by decide
  simp only [COMM_COUNT, prefix_loop, TASK_COMM_LEN, e0, e1, e2, trusted_identities,
    List.mem_cons, List.mem_singleton, exists_eq_or_imp, exists_eq_left, List.not_mem_nil,
    false_and, exists_false, or_false, ← h0, ← h1, ← h2]
  by_cases a : comm_match_loop buf (CILIUM_AGENT ++ List.replicate 4 0) 16 0 = true <;>
  by_cases b : comm_match_loop buf (IP_MASQ ++ List.replicate 9 0) 16 0 = true <;>
  simp [a, b]

theorem is_allowed_parent_iff_buf (env : bpf_env) :
    is_allowed_parent env = true ↔
      ∃ parent, env.task.real_parent = some parent ∧
        ∃ buf, bpf_core_read_str TASK_COMM_LEN parent.comm = some buf ∧
          ∃ id ∈ trusted_identities, id <+: buf := by
  unfold is_allowed_parent
  cases hp : env.task.real_parent with
  | none => simp
  | some parent =>
    cases hb : bpf_core_read_str TASK_COMM_LEN parent.comm with
    | none => simp [hb]
    | some buf => simp [hb, prefix_loop_iff]

theorem is_allowed_parent_iff_name (env : bpf_env) (parent : parent_task_struct)
    (name : List Nat) (hp : env.task.real_parent = some parent) (hn : parent.comm = some name) :
    is_allowed_parent env = true ↔ ∃ id ∈ trusted_identities, id <+: name := by
  rw [is_allowed_parent_iff_buf]
  simp only [hp, Option.some.injEq, exists_eq_left', hn, bpf_core_read_str, Option.map_some']
  have k0 := fun k => prefix_read_str_iff CILIUM_AGENT (by decide) name (TASK_COMM_LEN - 1) k (by decide)
  have k1 := fun k => prefix_read_str_iff IP_MASQ (by decide) name (TASK_COMM_LEN - 1) k (by decide)
  have k2 := fun k => prefix_read_str_iff AZURE_CNS (by decide) name (TASK_COMM_LEN - 1) k (by decide)
  simp only [trusted_identities, List.mem_cons, List.mem_singleton, exists_eq_or_imp,
    exists_eq_left, List.not_mem_nil, false_and, exists_false, or_false, k0, k1, k2]

/-! ## The event counter -/

theorem increment_blocked (m : event_counter_map) :
    counter_value (increment_event_counter m false) 0 = (counter_value m 0 + 1) % 2 ^ 64 ∧
      (increment_event_counter m false).slot1 = m.slot1 := by
  rcases m with ⟨_ | a, b⟩ <;>
    simp [increment_event_counter, counter_value, bpf_map_lookup_elem, bpf_map_update_elem]

theorem increment_allowed (m : event_counter_map) :
    counter_value (increment_event_counter m true) 1 = (counter_value m 1 + 1) % 2 ^ 64 ∧
      (increment_event_counter m true).slot0 = m.slot0 := by
  rcases m with ⟨a, _ | b⟩ <;>
    simp [increment_event_counter, counter_value, bpf_map_lookup_elem, bpf_map_update_elem]

/-! ## The legacy guard -/

/-- C1 (as amended): a host-namespace legacy replace-ruleset call whose parent name has none of
the three trusted identities as a prefix is refused with -EPERM = -1; the blocked counter
(key 0) becomes (old + 1) mod 2^64 and the allowed slot (key 1) is untouched. -/
theorem legacy_block_denies_untrusted (env : bpf_env) (m : event_counter_map)
    (sock : Option socket) (level optname : Int) (parent : parent_task_struct)
    (name : List Nat)
    (hsock : sock ≠ none) (hlevel : level = IPPROTO_IP ∨ level = IPPROTO_IP6)
    (hopt : optname = IPT_SO_SET_REPLACE) (hhost : is_host_ns env = true)
    (hparent : env.task.real_parent = some parent) (hname : parent.comm = some name)
    (hnone : ∀ id ∈ trusted_identities, ¬ id <+: name) :
    (iptables_legacy_block env m sock level optname).1 = -1 ∧
      counter_value (iptables_legacy_block env m sock level optname).2 0
        = (counter_value m 0 + 1) % 2 ^ 64 ∧
      (iptables_legacy_block env m sock level optname).2.slot1 = m.slot1 := by
  have hp : is_allowed_parent env = false := by
    rw [← Bool.not_eq_true, is_allowed_parent_iff_name env parent name hparent hname]
    rintro ⟨id, hid, hpre⟩
    exact hnone id hid hpre
  have hr : iptables_legacy_block env m sock level optname
      = (-1, increment_event_counter m false) := by
    simp [iptables_legacy_block, hsock, hlevel, hopt, hhost, hp, EPERM]
  rw [hr]
  exact ⟨rfl, (increment_blocked m).1, (increment_blocked m).2⟩

theorem legacy_block_denies_untrusted_witness :
    (iptables_legacy_block (host_env (cstr "bash")) ⟨some 7, none⟩ (some ()) 41 64).1 = -1 ∧
      counter_value
          (iptables_legacy_block (host_env (cstr "bash")) ⟨some 7, none⟩ (some ()) 41 64).2 0
        = (counter_value ⟨some 7, none⟩ 0 + 1) % 2 ^ 64 ∧
      (iptables_legacy_block (host_env (cstr "bash")) ⟨some 7, none⟩ (some ()) 41 64).2.slot1
        = none :=
  legacy_block_denies_untrusted (host_env (cstr "bash")) ⟨some 7, none⟩ (some ()) 41 64
    ⟨some (cstr "bash")⟩ (cstr "bash") (by decide) (by decide) (by decide) (by decide) rfl rfl
    (by decide)

/-- C1 (as stated) fails when the blocked slot holds 2^64 - 1: the call is refused, but the
slot wraps to 0 instead of growing by 1. -/
theorem legacy_block_blocked_counter_wraps :
    is_host_ns (host_env (cstr "bash")) = true ∧
    (∀ id ∈ trusted_identities, ¬ id <+: cstr "bash") ∧
    iptables_legacy_block (host_env (cstr "bash")) ⟨some (2 ^ 64 - 1), some 0⟩ (some ())
        IPPROTO_IP IPT_SO_SET_REPLACE = (-1, ⟨some 0, some 0⟩) ∧
    ¬ (counter_value (iptables_legacy_block (host_env (cstr "bash")) ⟨some (2 ^ 64 - 1), some 0⟩
          (some ()) IPPROTO_IP IPT_SO_SET_REPLACE).2 0
        = counter_value ⟨some (2 ^ 64 - 1), some 0⟩ 0 + 1) := by
  decide

/-- C2 (as amended): a host-namespace legacy replace-ruleset call whose parent name starts with
the bytes of one of the three trusted identities is allowed (return value 0); the allowed
counter (key 1) becomes (old + 1) mod 2^64 and the blocked slot (key 0) is untouched. -/
theorem legacy_block_allows_trusted (env : bpf_env) (m : event_counter_map)
    (sock : Option socket) (level optname : Int) (parent : parent_task_struct)
    (name : List Nat)
    (hsock : sock ≠ none) (hlevel : level = IPPROTO_IP ∨ level = IPPROTO_IP6)
    (hopt : optname = IPT_SO_SET_REPLACE) (hhost : is_host_ns env = true)
    (hparent : env.task.real_parent = some parent) (hname : parent.comm = some name)
    (hsome : ∃ id ∈ trusted_identities, id <+: name) :
    (iptables_legacy_block env m sock level optname).1 = 0 ∧
      counter_value (iptables_legacy_block env m sock level optname).2 1
        = (counter_value m 1 + 1) % 2 ^ 64 ∧
      (iptables_legacy_block env m sock level optname).2.slot0 = m.slot0 := by
  have hp : is_allowed_parent env = true :=
    (is_allowed_parent_iff_name env parent name hparent hname).2 hsome
  have hr : iptables_legacy_block env m sock level optname
      = (0, increment_event_counter m true) := by
    simp [iptables_legacy_block, hsock, hlevel, hopt, hhost, hp]
  rw [hr]
  exact ⟨rfl, (increment_allowed m).1, (increment_allowed m).2⟩

theorem legacy_block_allows_trusted_witness :
    (iptables_legacy_block (host_env (cstr "azure-cns")) ⟨none, some 41⟩ (some ()) 0 64).1 = 0 ∧
      counter_value
          (iptables_legacy_block (host_env (cstr "azure-cns")) ⟨none, some 41⟩ (some ()) 0 64).2 1
        = (counter_value ⟨none, some 41⟩ 1 + 1) % 2 ^ 64 ∧
      (iptables_legacy_block (host_env (cstr "azure-cns")) ⟨none, some 41⟩ (some ()) 0 64).2.slot0
        = none :=
  legacy_block_allows_trusted (host_env (cstr "azure-cns")) ⟨none, some 41⟩ (some ()) 0 64
    ⟨some (cstr "azure-cns")⟩ (cstr "azure-cns") (by decide) (by decide) (by decide)
    (by decide) rfl rfl ⟨AZURE_CNS, by decide, by decide⟩

/-- C2 (as stated) fails when the allowed slot holds 2^64 - 1: the call by a child of
"cilium-agent" is allowed, but the slot wraps to 0 instead of growing by 1. -/
theorem legacy_block_allowed_counter_wraps :
    is_host_ns (host_env (cstr "cilium-agent")) = true ∧
    (∃ id ∈ trusted_identities, id <+: cstr "cilium-agent") ∧
    iptables_legacy_block (host_env (cstr "cilium-agent")) ⟨some 0, some (2 ^ 64 - 1)⟩ (some ())
        IPPROTO_IP6 IPT_SO_SET_REPLACE = (0, ⟨some 0, some 0⟩) ∧
    ¬ (counter_value (iptables_legacy_block (host_env (cstr "cilium-agent"))
          ⟨some 0, some (2 ^ 64 - 1)⟩ (some ()) IPPROTO_IP6 IPT_SO_SET_REPLACE).2 1
        = counter_value ⟨some 0, some (2 ^ 64 - 1)⟩ 1 + 1) := by
  refine ⟨by decide, ⟨CILIUM_AGENT, by decide, by decide⟩, by decide, by decide⟩

/-- C3: the ancestry verifier accepts exactly when the parent task is resolvable, its name can be
read into the 16-byte buffer, and one of "cilium-agent", "ip-masq", "azure-cns" is a
byte-for-byte prefix of that buffer; so a parent called "ip-masq-agent" is accepted, while
"ip-mas" and the empty name are not. -/
theorem is_allowed_parent_iff_identity_matches :
    (∀ env : bpf_env, is_allowed_parent env = true ↔
      ∃ parent, env.task.real_parent = some parent ∧
        ∃ parent_comm, bpf_core_read_str TASK_COMM_LEN parent.comm = some parent_comm ∧
          ∃ id ∈ [cstr "cilium-agent", cstr "ip-masq", cstr "azure-cns"], id <+: parent_comm) ∧
    is_allowed_parent (host_env (cstr "ip-masq-agent")) = true ∧
    is_allowed_parent (host_env (cstr "ip-mas")) = false ∧
    is_allowed_parent (host_env (cstr "")) = false :=
  ⟨is_allowed_parent_iff_buf, by decide, by decide, by decide⟩

/-- C4: when the calling task is classified as not in the host namespace, both guards return 0
and leave the counter map as it was, for every parent, socket, level, option name and buffer. -/
theorem not_host_ns_passes_through (env : bpf_env) (m : event_counter_map)
    (sk : Option sock) (skb : Option sk_buff) (sock : Option socket) (level optname : Int)
    (hns : is_host_ns env = false) :
    iptables_legacy_block env m sock level optname = (0, m) ∧
      (iptables_nftables_block env m sk skb).ret = 0 ∧
      (iptables_nftables_block env m sk skb).counters = m := by
  refine ⟨?_, ?_, ?_⟩
  · simp [iptables_legacy_block, hns]
  · unfold iptables_nftables_block
    split <;> simp [hns]
  · unfold iptables_nftables_block
    split <;> simp [hns]

theorem not_host_ns_passes_through_witness :
    iptables_legacy_block (container_env (cstr "bash")) ⟨some 3, some 5⟩ (some ()) 0 64
        = (0, ⟨some 3, some 5⟩) ∧
      (iptables_nftables_block (container_env (cstr "bash")) ⟨some 3, some 5⟩ (some nfnl_sock)
        (some ⟨some 1, some 40, mem_of [(0, hdr 40 2566)]⟩)).ret = 0 ∧
      (iptables_nftables_block (container_env (cstr "bash")) ⟨some 3, some 5⟩ (some nfnl_sock)
        (some ⟨some 1, some 40, mem_of [(0, hdr 40 2566)]⟩)).counters = ⟨some 3, some 5⟩ :=
  not_host_ns_passes_through (container_env (cstr "bash")) ⟨some 3, some 5⟩ (some nfnl_sock)
    (some ⟨some 1, some 40, mem_of [(0, hdr 40 2566)]⟩) (some ()) 0 64 (by decide)

/-- C5: a legacy-guard call with a null socket, or a level other than 0 and 41, or an option
name other than 64, returns 0 and leaves the counter map as it was, whatever the namespace and
the parent. -/
theorem legacy_block_ignores_other_options (env : bpf_env) (m : event_counter_map)
    (sock : Option socket) (level optname : Int)
    (h : sock = none ∨ (level ≠ 0 ∧ level ≠ 41) ∨ optname ≠ 64) :
    iptables_legacy_block env m sock level optname = (0, m) := by
  unfold iptables_legacy_block
  rcases h with h | ⟨h0, h41⟩ | h
  · simp [h]
  · simp [IPPROTO_IP, IPPROTO_IP6, h0, h41]
  · simp [IPT_SO_SET_REPLACE, h]

theorem legacy_block_ignores_other_options_witness :
    iptables_legacy_block (host_env (cstr "bash")) ⟨some 3, some 5⟩ (some ()) 0 65
      = (0, ⟨some 3, some 5⟩) :=
  legacy_block_ignores_other_options (host_env (cstr "bash")) ⟨some 3, some 5⟩ (some ()) 0 65
    (Or.inr (Or.inr (by decide)))

/-! ## The netlink guard -/

theorem nl_scan_reads_length (env : bpf_env) (mem : Nat → Option nlmsghdr) (fuel data skb_len : Nat)
    (m : event_counter_map) (reads : List Nat) :
    (nl_scan env mem fuel data skb_len m reads).reads.length ≤ reads.length + fuel := by
  induction fuel generalizing data skb_len reads with
  | zero => simp [nl_scan]
  | succ f ih =>
    unfold nl_scan
    by_cases hlen : skb_len < 16
    · simp [hlen]
    · simp only [hlen, if_false]
      cases hmem : mem data with
      | none => simp
      | some nlh =>
        simp only []
        split
        · split <;> simp
        · refine le_trans (ih _ _ _) ?_
          simp
          omega

theorem nl_scan_no_newrule (env : bpf_env) (mem : Nat → Option nlmsghdr) (fuel data skb_len : Nat)
    (m : event_counter_map) (reads : List Nat)
    (h : ∀ o ∈ (nl_scan env mem fuel data skb_len m reads).reads,
      ∀ nlh, mem o = some nlh → ¬ is_newrule nlh) :
    (nl_scan env mem fuel data skb_len m reads).ret = 0 ∧
      (nl_scan env mem fuel data skb_len m reads).counters = m := by
  induction fuel generalizing data skb_len reads with
  | zero => simp [nl_scan]
  | succ f ih =>
    unfold nl_scan at h ⊢
    by_cases hlen : skb_len < 16
    · simp [hlen]
    · simp only [hlen, if_false] at h ⊢
      cases hmem : mem data with
      | none => simp
      | some nlh =>
        simp only [hmem] at h ⊢
        by_cases hnew : is_newrule nlh
        · exfalso
          have hnew' := hnew
          unfold is_newrule at hnew'
          simp only [hnew', and_self, if_true] at h
          have hd : data ∈ (if is_allowed_parent env = true then
              (⟨0, increment_event_counter m true, reads ++ [data]⟩ : nl_result)
              else ⟨-EPERM, increment_event_counter m false, reads ++ [data]⟩).reads := by
            split <;> simp
          exact h data hd nlh hmem hnew
        · have hnew' := hnew
          unfold is_newrule at hnew'
          simp only [hnew', if_false] at h ⊢
          exact ih _ _ _ h

theorem nl_scan_short (env : bpf_env) (mem : Nat → Option nlmsghdr) (fuel data skb_len : Nat)
    (m : event_counter_map) (reads : List Nat) (h : skb_len < 16) :
    nl_scan env mem fuel data skb_len m reads = ⟨0, m, reads⟩ := by
  cases fuel with
  | zero => rfl
  | succ f => simp only [nl_scan, h, if_true]

theorem nl_scan_newrule (env : bpf_env) (mem : Nat → Option nlmsghdr) (fuel data skb_len : Nat)
    (m : event_counter_map) (reads : List Nat) (nlh : nlmsghdr) (hlen : 16 ≤ skb_len)
    (hmem : mem data = some nlh) (hnew : is_newrule nlh) :
    nl_scan env mem (fuel + 1) data skb_len m reads
      = if is_allowed_parent env then ⟨0, increment_event_counter m true, reads ++ [data]⟩
        else ⟨-EPERM, increment_event_counter m false, reads ++ [data]⟩ := by
  have hlen' : ¬ skb_len < 16 := by omega
  unfold is_newrule at hnew
  simp only [nl_scan, hlen', if_false, hmem, hnew, and_self, if_true]

theorem nl_scan_skip (env : bpf_env) (mem : Nat → Option nlmsghdr) (fuel data skb_len : Nat)
    (m : event_counter_map) (reads : List Nat) (nlh : nlmsghdr) (hlen : 16 ≤ skb_len)
    (hmem : mem data = some nlh) (hnew : ¬ is_newrule nlh) :
    nl_scan env mem (fuel + 1) data skb_len m reads
      = nl_scan env mem fuel (data + nlh.nlmsg_len % 2 ^ 32)
          ((skb_len + 2 ^ 32 - nlh.nlmsg_len % 2 ^ 32) % 2 ^ 32) m (reads ++ [data]) := by
  have hlen' : ¬ skb_len < 16 := by omega
  unfold is_newrule at hnew
  simp only [nl_scan, hlen', if_false, hmem, hnew]

theorem nftables_block_cases (env : bpf_env) (m : event_counter_map) (sk : Option sock)
    (skb : Option sk_buff) :
    iptables_nftables_block env m sk skb = ⟨0, m, []⟩ ∨
      ∃ s l, skb = some s ∧ s.len = some l ∧
        iptables_nftables_block env m sk skb
          = nl_scan env s.mem NETLINK_MSG_COUNT 0 (l % 2 ^ 32) m [] := by
  unfold iptables_nftables_block
  split
  · exact Or.inl rfl
  · exact Or.inl rfl
  · rename_i k s
    simp only []
    split
    · exact Or.inl rfl
    split
    · exact Or.inl rfl
    split
    · exact Or.inl rfl
    split
    · exact Or.inl rfl
    split
    · exact Or.inl rfl
    split
    · exact Or.inl rfl
    · rename_i l hl
      exact Or.inr ⟨s, l, rfl, hl, rfl⟩

theorem nftables_block_active (env : bpf_env) (m : event_counter_map) (k : sock) (s : sk_buff)
    (d l : Nat) (hfam : k.sk_family = some AF_NETLINK)
    (hproto : k.sk_protocol = some NETLINK_NETFILTER) (hhost : is_host_ns env = true)
    (hdata : s.data = some d) (hd : d ≠ 0) (hlen : s.len = some l) :
    iptables_nftables_block env m (some k) (some s)
      = nl_scan env s.mem NETLINK_MSG_COUNT 0 (l % 2 ^ 32) m [] := by
  simp [iptables_nftables_block, hfam, hproto, hhost, hdata, hd, hlen, AF_NETLINK,
    NETLINK_NETFILTER]

/-- C9: when the declared buffer length is below the 16 bytes of one header, the netlink guard
returns 0, leaves the counter map as it was and reads no header, whatever the socket, the
namespace, the parent and the buffer contents. -/
theorem nftables_block_short_buffer (env : bpf_env) (m : event_counter_map) (sk : Option sock)
    (s : sk_buff) (l : Nat) (hlen : s.len = some l) (hshort : l < 16) :
    (iptables_nftables_block env m sk (some s)).ret = 0 ∧
      (iptables_nftables_block env m sk (some s)).counters = m ∧
      (iptables_nftables_block env m sk (some s)).reads = [] := by
  rcases nftables_block_cases env m sk (some s) with h | ⟨s', l', hs, hl, h⟩
  · simp [h]
  · cases hs
    rw [hlen] at hl
    cases hl
    have hmod : l % 2 ^ 32 < 16 := lt_of_le_of_lt (Nat.mod_le _ _) hshort
    rw [h, nl_scan_short env s.mem NETLINK_MSG_COUNT 0 (l % 2 ^ 32) m [] hmod]
    exact ⟨rfl, rfl, rfl⟩

theorem nftables_block_short_buffer_witness :
    (iptables_nftables_block (host_env (cstr "bash")) ⟨some 3, some 5⟩ (some nfnl_sock)
        (some ⟨some 1, some 15, mem_of [(0, hdr 15 2566)]⟩)).ret = 0 ∧
      (iptables_nftables_block (host_env (cstr "bash")) ⟨some 3, some 5⟩ (some nfnl_sock)
        (some ⟨some 1, some 15, mem_of [(0, hdr 15 2566)]⟩)).counters = ⟨some 3, some 5⟩ ∧
      (iptables_nftables_block (host_env (cstr "bash")) ⟨some 3, some 5⟩ (some nfnl_sock)
        (some ⟨some 1, some 15, mem_of [(0, hdr 15 2566)]⟩)).reads = [] :=
  nftables_block_short_buffer (host_env (cstr "bash")) ⟨some 3, some 5⟩ (some nfnl_sock)
    ⟨some 1, some 15, mem_of [(0, hdr 15 2566)]⟩ 15 rfl (by decide)

/-- C10: the netlink guard issues at most NETLINK_MSG_COUNT = 4 header reads, and when none of the
headers it read is an nftables new-rule header it returns 0 and leaves the counter map as it was,
whatever the parent and whatever the buffer holds at places it did not read. -/
theorem nftables_block_scan_window (env : bpf_env) (m : event_counter_map) (sk : Option sock)
    (skb : Option sk_buff) :
    (iptables_nftables_block env m sk skb).reads.length ≤ NETLINK_MSG_COUNT ∧
      ((∀ s, skb = some s → ∀ o ∈ (iptables_nftables_block env m sk skb).reads,
          ∀ nlh, s.mem o = some nlh → ¬ is_newrule nlh) →
        (iptables_nftables_block env m sk skb).ret = 0 ∧
          (iptables_nftables_block env m sk skb).counters = m) := by
  rcases nftables_block_cases env m sk skb with h | ⟨s, l, hs, _, h⟩
  · simp [h]
  · rw [h]
    refine ⟨by simpa using nl_scan_reads_length env s.mem NETLINK_MSG_COUNT 0 (l % 2 ^ 32) m [], ?_⟩
    intro hno
    exact nl_scan_no_newrule env s.mem NETLINK_MSG_COUNT 0 (l % 2 ^ 32) m [] (hno s hs)

theorem nftables_block_scan_window_witness :
    is_newrule (hdr 20 2566) ∧ skb_newrule_fifth.mem 64 = some (hdr 20 2566) ∧
    (iptables_nftables_block (host_env (cstr "bash")) ⟨some 3, some 5⟩ (some nfnl_sock)
        (some skb_newrule_fifth)).reads.length ≤ NETLINK_MSG_COUNT ∧
    (iptables_nftables_block (host_env (cstr "bash")) ⟨some 3, some 5⟩ (some nfnl_sock)
        (some skb_newrule_fifth)).ret = 0 ∧
    (iptables_nftables_block (host_env (cstr "bash")) ⟨some 3, some 5⟩ (some nfnl_sock)
        (some skb_newrule_fifth)).counters = ⟨some 3, some 5⟩ := by
  have hyp : ∀ s, some skb_newrule_fifth = some s →
      ∀ o ∈ (iptables_nftables_block (host_env (cstr "bash")) ⟨some 3, some 5⟩ (some nfnl_sock)
        (some skb_newrule_fifth)).reads, ∀ nlh, s.mem o = some nlh → ¬ is_newrule nlh := by
    intro s hs o ho nlh hmem
    cases hs
    have hr : (iptables_nftables_block (host_env (cstr "bash")) ⟨some 3, some 5⟩
        (some nfnl_sock) (some skb_newrule_fifth)).reads = [0, 16, 32, 48] := by decide
    rw [hr] at ho
    have hall : ∀ o ∈ [0, 16, 32, 48], skb_newrule_fifth.mem o = some (hdr 16 16) := by decide
    rw [hall o ho] at hmem
    cases hmem
    decide
  have h := nftables_block_scan_window (host_env (cstr "bash")) ⟨some 3, some 5⟩
    (some nfnl_sock) (some skb_newrule_fifth)
  exact ⟨by decide, by decide, h.1, (h.2 hyp).1, (h.2 hyp).2⟩

/-- C8 (as amended): on a host-namespace send over an AF_NETLINK / NETLINK_NETFILTER socket whose
record at offset (first record's declared length) is an nftables new-rule record, both headers
lying within the declared length: if the ancestry verifier accepts the parent the guard returns 0,
the allowed counter becomes (old + 1) mod 2^64 and the blocked slot is untouched; otherwise it
returns -EPERM = -1, the blocked counter becomes (old + 1) mod 2^64 and the allowed slot is
untouched. This holds for every type of the first record. -/
theorem nftables_block_second_record (env : bpf_env) (m : event_counter_map) (k : sock)
    (s : sk_buff) (d l : Nat) (first second : nlmsghdr)
    (hfam : k.sk_family = some AF_NETLINK) (hproto : k.sk_protocol = some NETLINK_NETFILTER)
    (hhost : is_host_ns env = true)
    (hdata : s.data = some d) (hd : d ≠ 0) (hlen : s.len = some l)
    (hfirst : s.mem 0 = some first)
    (hsecond : s.mem (first.nlmsg_len % 2 ^ 32) = some second)
    (hnew : is_newrule second)
    (hwithin : first.nlmsg_len % 2 ^ 32 + 16 ≤ l % 2 ^ 32) :
    (is_allowed_parent env = true →
      (iptables_nftables_block env m (some k) (some s)).ret = 0 ∧
      counter_value (iptables_nftables_block env m (some k) (some s)).counters 1
        = (counter_value m 1 + 1) % 2 ^ 64 ∧
      (iptables_nftables_block env m (some k) (some s)).counters.slot0 = m.slot0) ∧
    (is_allowed_parent env = false →
      (iptables_nftables_block env m (some k) (some s)).ret = -1 ∧
      counter_value (iptables_nftables_block env m (some k) (some s)).counters 0
        = (counter_value m 0 + 1) % 2 ^ 64 ∧
      (iptables_nftables_block env m (some k) (some s)).counters.slot1 = m.slot1) := by
  have hverdict : ∃ reads, iptables_nftables_block env m (some k) (some s)
      = if is_allowed_parent env then ⟨0, increment_event_counter m true, reads⟩
        else ⟨-EPERM, increment_event_counter m false, reads⟩ := by
    rw [nftables_block_active env m k s d l hfam hproto hhost hdata hd hlen]
    have h16 : 16 ≤ l % 2 ^ 32 := by omega
    by_cases hn1 : is_newrule first
    · exact ⟨_, nl_scan_newrule env s.mem 3 0 (l % 2 ^ 32) m [] first h16 hfirst hn1⟩
    · have hstep := nl_scan_skip env s.mem 3 0 (l % 2 ^ 32) m [] first h16 hfirst hn1
      have hlt : l % 2 ^ 32 < 2 ^ 32 := Nat.mod_lt _ (by norm_num)
      have hrem : 16 ≤ (l % 2 ^ 32 + 2 ^ 32 - first.nlmsg_len % 2 ^ 32) % 2 ^ 32 := by
        have e : l % 2 ^ 32 + 2 ^ 32 - first.nlmsg_len % 2 ^ 32
            = (l % 2 ^ 32 - first.nlmsg_len % 2 ^ 32) + 2 ^ 32 := by omega
        rw [e, Nat.add_mod_right, Nat.mod_eq_of_lt (by omega)]
        omega
      have hsecond' : s.mem (0 + first.nlmsg_len % 2 ^ 32) = some second := by
        rw [Nat.zero_add]; exact hsecond
      refine ⟨([] ++ [0]) ++ [0 + first.nlmsg_len % 2 ^ 32], ?_⟩
      show nl_scan env s.mem (3 + 1) 0 (l % 2 ^ 32) m [] = _
      rw [hstep]
      exact nl_scan_newrule env s.mem 2 _ _ m _ second hrem hsecond' hnew
  obtain ⟨reads, hr⟩ := hverdict
  rw [hr]
  refine ⟨fun ha => ?_, fun ha => ?_⟩
  · rw [ha]
    exact ⟨rfl, (increment_allowed m).1, (increment_allowed m).2⟩
  · rw [ha]
    exact ⟨rfl, (increment_blocked m).1, (increment_blocked m).2⟩

theorem nftables_block_second_record_witness :
    (iptables_nftables_block (host_env (cstr "bash")) ⟨some 3, some 5⟩ (some nfnl_sock)
        (some skb_newrule_second)).ret = -1 ∧
    counter_value (iptables_nftables_block (host_env (cstr "bash")) ⟨some 3, some 5⟩
        (some nfnl_sock) (some skb_newrule_second)).counters 0
      = (counter_value ⟨some 3, some 5⟩ 0 + 1) % 2 ^ 64 ∧
    (iptables_nftables_block (host_env (cstr "bash")) ⟨some 3, some 5⟩ (some nfnl_sock)
        (some skb_newrule_second)).counters.slot1 = some 5 :=
  (nftables_block_second_record (host_env (cstr "bash")) ⟨some 3, some 5⟩ nfnl_sock
    skb_newrule_second 1 40 (hdr 20 16) (hdr 20 2566) rfl rfl (by decide) rfl (by decide) rfl
    (by decide) (by decide) (by decide) (by decide)).2 (by decide)

/-- C8 (as stated) fails when the allowed slot holds 2^64 - 1: a child of "ip-masq-agent" in the
host namespace sends a buffer whose second record is a new-rule record; the send is allowed, but
the allowed slot wraps to 0 instead of growing by 1. -/
theorem nftables_block_allowed_counter_wraps :
    is_host_ns (host_env (cstr "ip-masq-agent")) = true ∧
    is_allowed_parent (host_env (cstr "ip-masq-agent")) = true ∧
    skb_newrule_second.mem 0 = some (hdr 20 16) ∧
    skb_newrule_second.mem 20 = some (hdr 20 2566) ∧ is_newrule (hdr 20 2566) ∧
    skb_newrule_second.len = some 40 ∧
    iptables_nftables_block (host_env (cstr "ip-masq-agent")) ⟨some 0, some (2 ^ 64 - 1)⟩
        (some nfnl_sock) (some skb_newrule_second) = ⟨0, ⟨some 0, some 0⟩, [0, 20]⟩ ∧
    ¬ (counter_value (iptables_nftables_block (host_env (cstr "ip-masq-agent"))
          ⟨some 0, some (2 ^ 64 - 1)⟩ (some nfnl_sock) (some skb_newrule_second)).counters 1
        = counter_value ⟨some 0, some (2 ^ 64 - 1)⟩ 1 + 1) := by
  decide

/-- C6 (the code at the failing input): with a declared length of 20 and a first record that
declares 24 bytes, the remaining length wraps to 2^32 - 4 and the guard reads a second header at
offset 24, so that 24 + 16 exceeds the declared length 20. -/
theorem nftables_block_reads_past_declared_length :
    (skb_overlong_record 0 0).len = some 20 ∧
    (20 + 2 ^ 32 - 24) % 2 ^ 32 = 2 ^ 32 - 4 ∧
    (iptables_nftables_block (host_env (cstr "bash")) ⟨some 0, some 0⟩ (some nfnl_sock)
        (some (skb_overlong_record 0 0))).reads = [0, 24, 24, 24] ∧
    ¬ (∀ o ∈ (iptables_nftables_block (host_env (cstr "bash")) ⟨some 0, some 0⟩ (some nfnl_sock)
        (some (skb_overlong_record 0 0))).reads, o + 16 ≤ 20) := by
  decide

/-- C7 (the code at the failing input): with a declared length of 20 and a first, non-matching
record that declares 24 bytes, the scan does not stop; it reads the bytes behind the buffer, and
when they parse as a new-rule header the send of a child of "bash" is refused with -EPERM and the
blocked counter goes from 3 to 4. -/
theorem nftables_block_overlong_record_not_aborted :
    (skb_overlong_record 20 2566).len = some 20 ∧
    (skb_overlong_record 20 2566).mem 0 = some (hdr 24 16) ∧ ¬ is_newrule (hdr 24 16) ∧
    iptables_nftables_block (host_env (cstr "bash")) ⟨some 3, some 5⟩ (some nfnl_sock)
        (some (skb_overlong_record 20 2566)) = ⟨-1, ⟨some 4, some 5⟩, [0, 24]⟩ := by
  decide

/-! ## The netlink guard: when the ancestry verifier is consulted -/

theorem nl_scan_reads_indep (env : bpf_env) (mem : Nat → Option nlmsghdr) (fuel data skb_len : Nat)
    (m m' : event_counter_map) (reads : List Nat) :
    (nl_scan env mem fuel data skb_len m reads).reads
      = (nl_scan env mem fuel data skb_len m' reads).reads := by
  induction fuel generalizing data skb_len reads with
  | zero => simp [nl_scan]
  | succ f ih =>
    unfold nl_scan
    by_cases hlen : skb_len < 16
    · simp [hlen]
    · simp only [hlen, if_false]
      cases hmem : mem data with
      | none => simp
      | some nlh =>
        simp only []
        split
        · split <;> simp
        · exact ih _ _ _

theorem nl_scan_hit (env : bpf_env) (mem : Nat → Option nlmsghdr) (fuel data skb_len : Nat)
    (m : event_counter_map) (reads : List Nat)
    (hpre : ∀ o ∈ reads, newrule_at mem o = false)
    (hhit : (nl_scan env mem fuel data skb_len m reads).reads.any (newrule_at mem) = true) :
    (nl_scan env mem fuel data skb_len m reads).ret
        = (if is_allowed_parent env then 0 else -EPERM) ∧
      (nl_scan env mem fuel data skb_len m reads).counters
        = increment_event_counter m (is_allowed_parent env) := by
  have hnone : reads.any (newrule_at mem) = false := by
    rw [List.any_eq_false]
    intro o ho
    simp [hpre o ho]
  induction fuel generalizing data skb_len reads with
  | zero =>
    simp only [nl_scan] at hhit
    rw [hnone] at hhit
    cases hhit
  | succ f ih =>
    by_cases hlen : skb_len < 16
    · rw [nl_scan_short env mem (f + 1) data skb_len m reads hlen] at hhit
      simp only [] at hhit
      rw [hnone] at hhit
      cases hhit
    · have h16 : 16 ≤ skb_len := by omega
      cases hmem : mem data with
      | none =>
        have hd : newrule_at mem data = false := by simp [newrule_at, hmem]
        simp only [nl_scan, hlen, if_false, hmem, List.any_append, hnone, List.any_cons, hd,
          List.any_nil, Bool.or_false] at hhit
        cases hhit
      | some nlh =>
        by_cases hnew : is_newrule nlh
        · rw [nl_scan_newrule env mem f data skb_len m reads nlh h16 hmem hnew]
          cases is_allowed_parent env <;> simp
        · rw [nl_scan_skip env mem f data skb_len m reads nlh h16 hmem hnew] at hhit ⊢
          have hd : newrule_at mem data = false := by simp [newrule_at, hmem, hnew]
          have hpre' : ∀ o ∈ reads ++ [data], newrule_at mem o = false := by
            intro o ho
            rcases List.mem_append.1 ho with h | h
            · exact hpre o h
            · rw [List.mem_singleton.1 h]; exact hd
          have hnone' : (reads ++ [data]).any (newrule_at mem) = false := by
            simp [List.any_append, hnone, hd]
          exact ih _ _ _ hpre' hhit hnone'

theorem nl_scan_miss (env : bpf_env) (mem : Nat → Option nlmsghdr) (fuel data skb_len : Nat)
    (m : event_counter_map) (reads : List Nat)
    (hmiss : (nl_scan env mem fuel data skb_len m reads).reads.any (newrule_at mem) = false) :
    (nl_scan env mem fuel data skb_len m reads).ret = 0 ∧
      (nl_scan env mem fuel data skb_len m reads).counters = m := by
  apply nl_scan_no_newrule
  intro o ho nlh hmem hnew
  rw [List.any_eq_false] at hmiss
  exact hmiss o ho (by simp [newrule_at, hmem, hnew])

theorem nftables_block_full_cases (env : bpf_env) (m : event_counter_map) (sk : Option sock)
    (skb : Option sk_buff) :
    iptables_nftables_block env m sk skb = ⟨0, m, []⟩ ∨
      ∃ k s d l, sk = some k ∧ skb = some s ∧
        (k.sk_family.getD 0) % 2 ^ 16 = AF_NETLINK ∧
        (k.sk_protocol.getD 0) % 2 ^ 16 = NETLINK_NETFILTER ∧
        is_host_ns env = true ∧ s.data = some d ∧ d ≠ 0 ∧ s.len = some l ∧
        iptables_nftables_block env m sk skb
          = nl_scan env s.mem NETLINK_MSG_COUNT 0 (l % 2 ^ 32) m [] := by
  unfold iptables_nftables_block
  split
  · exact Or.inl rfl
  · exact Or.inl rfl
  · rename_i k s
    simp only []
    split
    · exact Or.inl rfl
    rename_i hfam
    split
    · exact Or.inl rfl
    rename_i hproto
    split
    · exact Or.inl rfl
    rename_i hhost
    split
    · exact Or.inl rfl
    rename_i d hd
    split
    · exact Or.inl rfl
    rename_i hd0
    split
    · exact Or.inl rfl
    · rename_i l hl
      refine Or.inr ⟨k, s, d, l, rfl, rfl, ?_, ?_, ?_, hd, hd0, hl, rfl⟩
      · exact not_not.1 hfam
      · exact not_not.1 hproto
      · simpa using hhost

theorem nftables_block_outcome (env : bpf_env) (m : event_counter_map) (sk : Option sock)
    (skb : Option sk_buff) :
    (reads_newrule skb (iptables_nftables_block env m sk skb).reads = false →
      (iptables_nftables_block env m sk skb).ret = 0 ∧
        (iptables_nftables_block env m sk skb).counters = m) ∧
    (reads_newrule skb (iptables_nftables_block env m sk skb).reads = true →
      is_host_ns env = true ∧
        (iptables_nftables_block env m sk skb).ret
          = (if is_allowed_parent env then 0 else -EPERM) ∧
        (iptables_nftables_block env m sk skb).counters
          = increment_event_counter m (is_allowed_parent env)) := by
  rcases nftables_block_full_cases env m sk skb with h | ⟨k, s, d, l, _, hs, _, _, hhost, _, _, _, h⟩
  · rw [h]
    refine ⟨fun _ => ⟨rfl, rfl⟩, fun hh => ?_⟩
    cases skb <;> simp [reads_newrule] at hh
  · rw [h, hs]
    refine ⟨fun hh => nl_scan_miss env s.mem _ _ _ m [] hh, fun hh => ?_⟩
    exact ⟨hhost, nl_scan_hit env s.mem _ _ _ m [] (by simp) hh⟩

theorem nftables_block_reads_indep (env : bpf_env) (m m' : event_counter_map) (sk : Option sock)
    (skb : Option sk_buff) :
    (iptables_nftables_block env m sk skb).reads = (iptables_nftables_block env m' sk skb).reads := by
  rcases sk with _ | k <;> rcases skb with _ | s <;> try rfl
  simp only [iptables_nftables_block]
  split_ifs <;> try rfl
  cases s.data with
  | none => rfl
  | some d =>
    simp only []
    split_ifs <;> try rfl
    cases s.len with
    | none => rfl
    | some l => exact nl_scan_reads_indep env s.mem _ _ _ m m' []

/-! ## Absent parent, namespace classification -/

/-- C11 (as amended): when the calling task has no parent (`real_parent` is NULL) the ancestry
verifier answers "not allowed". The legacy guard then returns 0 with the map unchanged only for a
pass-through call (null socket, other level or option, or not host namespace); a host-namespace
replace-ruleset call is refused with -EPERM = -1 and recorded as blocked. The netlink guard
returns 0 with the map unchanged when no header it read is a new-rule header, and otherwise
refuses with -EPERM = -1 and records the event as blocked. -/
theorem absent_parent_is_untrusted (env : bpf_env) (m : event_counter_map) (sk : Option sock)
    (skb : Option sk_buff) (sock : Option socket) (level optname : Int)
    (hparent : env.task.real_parent = none) :
    is_allowed_parent env = false ∧
    iptables_legacy_block env m sock level optname
      = (if sock ≠ none ∧ (level = 0 ∨ level = 41) ∧ optname = 64 ∧ is_host_ns env = true
          then (-1, increment_event_counter m false) else (0, m)) ∧
    (reads_newrule skb (iptables_nftables_block env m sk skb).reads = false →
      (iptables_nftables_block env m sk skb).ret = 0 ∧
        (iptables_nftables_block env m sk skb).counters = m) ∧
    (reads_newrule skb (iptables_nftables_block env m sk skb).reads = true →
      (iptables_nftables_block env m sk skb).ret = -1 ∧
        (iptables_nftables_block env m sk skb).counters = increment_event_counter m false) := by
  have hp : is_allowed_parent env = false := by simp [is_allowed_parent, hparent]
  have ho := nftables_block_outcome env m sk skb
  refine ⟨hp, ?_, ho.1, fun hh => ?_⟩
  · unfold iptables_legacy_block
    by_cases hs : sock = none
    · simp [hs]
    by_cases hl : level = 0 ∨ level = 41
    · by_cases hopt : optname = 64
      · cases hh : is_host_ns env <;>
          simp [hs, hl, hopt, hh, hp, IPPROTO_IP, IPPROTO_IP6, IPT_SO_SET_REPLACE, EPERM]
      · simp [hs, hopt, IPT_SO_SET_REPLACE]
    · simp [hs, hl, IPPROTO_IP, IPPROTO_IP6]
  · have h := (ho.2 hh).2
    rw [hp] at h
    exact ⟨by simpa [EPERM] using h.1, h.2⟩

theorem absent_parent_is_untrusted_witness :
    is_allowed_parent orphan_host_env = false ∧
    iptables_legacy_block orphan_host_env ⟨some 3, some 5⟩ (some ()) 41 64
      = (if (some () : Option socket) ≠ none ∧ ((41 : Int) = 0 ∨ (41 : Int) = 41) ∧ (64 : Int) = 64 ∧
            is_host_ns orphan_host_env = true
          then (-1, increment_event_counter ⟨some 3, some 5⟩ false) else (0, ⟨some 3, some 5⟩)) :=
  ⟨(absent_parent_is_untrusted orphan_host_env ⟨some 3, some 5⟩ none none (some ()) 41 64 rfl).1,
   (absent_parent_is_untrusted orphan_host_env ⟨some 3, some 5⟩ none none (some ()) 41 64 rfl).2.1⟩

/-- C11 (as stated) fails for host-namespace subject operations: a task without parent that
issues the legacy replace-ruleset call, or sends an nftables new-rule record, is refused with
-EPERM = -1 and the blocked counter goes from 3 to 4. -/
theorem absent_parent_is_denied_in_host_ns :
    orphan_host_env.task.real_parent = none ∧
    iptables_legacy_block orphan_host_env ⟨some 3, some 5⟩ (some ()) 0 64
      = (-1, ⟨some 4, some 5⟩) ∧
    (iptables_nftables_block orphan_host_env ⟨some 3, some 5⟩ (some nfnl_sock)
        (some skb_newrule_second)).ret = -1 ∧
    (iptables_nftables_block orphan_host_env ⟨some 3, some 5⟩ (some nfnl_sock)
        (some skb_newrule_second)).counters = ⟨some 4, some 5⟩ :=
  ⟨rfl, by decide, by decide, by decide⟩

/-- C12 (as amended): with the compiled-in default `host_netns_inode` = 4026531840 the namespace
classifier answers "host" exactly for the tasks whose namespace-proxy and network namespace resolve
and whose namespace identifier is 4026531840, and "not host" for every other task. -/
theorem default_inode_matches_one_namespace (task : task_struct) :
    is_host_ns ⟨task, host_netns_inode_default⟩ = true ↔
      ∃ nsp n, task.nsproxy = some nsp ∧ nsp.net_ns = some n ∧
        n.ns_inum % 2 ^ 32 = 4026531840 := by
  unfold is_host_ns
  cases hnsp : task.nsproxy with
  | none => simp
  | some nsp =>
    cases hnet : nsp.net_ns with
    | none => simp [hnet]
    | some n => simp [hnet, host_netns_inode_default]

/-- C12 (as stated) fails: the default 4026531840 is an ordinary identifier. A task whose
network namespace has this identifier is classified as host although the loader wrote nothing,
and its legacy replace-ruleset call is refused and counted. -/
theorem default_inode_enforces :
    (host_env (cstr "bash")).host_netns_inode = host_netns_inode_default ∧
    host_netns_inode_default = 4026531840 ∧
    is_host_ns (host_env (cstr "bash")) = true ∧
    iptables_legacy_block (host_env (cstr "bash")) ⟨some 3, some 5⟩ (some ()) 0 64
      = (-1, ⟨some 4, some 5⟩) := by
  decide

/-- C13: the namespace classifier answers true exactly when the task's namespace-proxy and its
network namespace both resolve and the 32-bit namespace identifier, zero-extended, equals the
64-bit configured identifier; when either object is missing it answers false. It is a function of
the task and the configuration only: it neither takes nor returns the counter map. -/
theorem is_host_ns_iff (env : bpf_env) :
    (is_host_ns env = true ↔
      ∃ nsp n, env.task.nsproxy = some nsp ∧ nsp.net_ns = some n ∧
        n.ns_inum % 2 ^ 32 = env.host_netns_inode % 2 ^ 64) ∧
    (env.task.nsproxy = none → is_host_ns env = false) ∧
    (∀ nsp, env.task.nsproxy = some nsp → nsp.net_ns = none → is_host_ns env = false) := by
  unfold is_host_ns
  cases hnsp : env.task.nsproxy with
  | none => simp
  | some nsp =>
    cases hnet : nsp.net_ns with
    | none => simp [hnet]
    | some n => simp [hnet]

/-! ## Counter accounting -/

theorem counter_value_increment (m : event_counter_map) (b : Bool) :
    counter_value (increment_event_counter m b) (if b then 1 else 0)
        = (counter_value m (if b then 1 else 0) + 1) % 2 ^ 64 ∧
      counter_value (increment_event_counter m b) (if b then 0 else 1)
        = counter_value m (if b then 0 else 1) := by
  rcases m with ⟨_ | a, _ | c⟩ <;> cases b <;>
    simp [increment_event_counter, counter_value, bpf_map_lookup_elem, bpf_map_update_elem]

theorem invoke_eq (m : event_counter_map) (inv : invocation) :
    (invoke m inv).2 = match verifier_verdict inv with
      | none => m
      | some b => increment_event_counter m b := by
  cases inv with
  | legacy env sock level optname =>
    simp only [invoke, verifier_verdict, iptables_legacy_block]
    by_cases hs : sock = none
    · simp [hs]
    by_cases hl : level = IPPROTO_IP ∨ level = IPPROTO_IP6
    · by_cases hopt : optname = IPT_SO_SET_REPLACE
      · cases hh : is_host_ns env <;> cases hp : is_allowed_parent env <;>
          simp [hs, hl, hopt, hh, hp]
      · simp [hs, hl, hopt]
    · simp [hs, hl]
  | nftables env sk skb =>
    simp only [invoke, verifier_verdict]
    rw [nftables_block_reads_indep env ⟨none, none⟩ m sk skb]
    have ho := nftables_block_outcome env m sk skb
    cases hr : reads_newrule skb (iptables_nftables_block env m sk skb).reads
    · simp [(ho.1 hr).2]
    · simp [(ho.2 hr).2.2]

theorem verdict_count_cons (b : Bool) (inv : invocation) (rest : List invocation) :
    verdict_count b (inv :: rest)
      = (if verifier_verdict inv = some b then 1 else 0) + verdict_count b rest := by
  unfold verdict_count
  by_cases h : verifier_verdict inv = some b
  · simp [List.filter_cons, h]; omega
  · simp [List.filter_cons, h]

theorem u64_slots_increment (m : event_counter_map) (b : Bool) (hm : u64_slots m) :
    u64_slots (increment_event_counter m b) := by
  have h := counter_value_increment m b
  have hlt : ∀ x : Nat, x % 2 ^ 64 < 2 ^ 64 := fun x => Nat.mod_lt _ (by norm_num)
  cases b
  · simp only [Bool.false_eq_true, if_false] at h
    exact ⟨by rw [h.1]; exact hlt _, by rw [h.2]; exact hm.2⟩
  · simp only [if_true] at h
    exact ⟨by rw [h.2]; exact hm.1, by rw [h.1]; exact hlt _⟩

theorem run_sequence_counters (m : event_counter_map) (l : List invocation) (hm : u64_slots m) :
    counter_value (run_sequence m l) 1 = (counter_value m 1 + verdict_count true l) % 2 ^ 64 ∧
      counter_value (run_sequence m l) 0 = (counter_value m 0 + verdict_count false l) % 2 ^ 64 := by
  induction l generalizing m with
  | nil =>
    simp only [run_sequence, verdict_count, List.filter_nil, List.length_nil, Nat.add_zero]
    exact ⟨(Nat.mod_eq_of_lt hm.2).symm, (Nat.mod_eq_of_lt hm.1).symm⟩
  | cons inv rest ih =>
    simp only [run_sequence, verdict_count_cons]
    have he := invoke_eq m inv
    cases hv : verifier_verdict inv with
    | none =>
      rw [hv] at he
      simp only [] at he
      rw [he]
      simpa using ih m hm
    | some b =>
      rw [hv] at he
      simp only [] at he
      rw [he]
      have hi := counter_value_increment m b
      have h' := ih _ (u64_slots_increment m b hm)
      cases b
      · simp only [Bool.false_eq_true, if_false] at hi
        rw [h'.1, h'.2, hi.1, hi.2]
        simp only [Option.some.injEq, Bool.false_eq_true, if_false, if_true, Nat.zero_add]
        refine ⟨trivial, ?_⟩
        rw [Nat.add_mod, Nat.mod_mod, ← Nat.add_mod]
        congr 1
        omega
      · simp only [if_true] at hi
        rw [h'.1, h'.2, hi.1, hi.2]
        simp only [Option.some.injEq, Bool.true_eq_false, if_false, if_true, Nat.zero_add]
        refine ⟨?_, trivial⟩
        rw [Nat.add_mod, Nat.mod_mod, ← Nat.add_mod]
        congr 1
        omega

/-- C14 (as amended): over every finite sequence of invocations of the two guards, starting from
any table of two unsigned 64-bit slots, the allowed slot (key 1) ends at (initial + number of
invocations that ended Allowed) mod 2^64 and the blocked slot (key 0) at (initial + number of
invocations that ended Denied) mod 2^64. Each invocation with a terminal decision performs one
increment of exactly one slot (key 1 iff Allowed, key 0 iff Denied); every pass-through
invocation leaves the map as it was. -/
theorem counter_accounting (m : event_counter_map) (l : List invocation) (hm : u64_slots m) :
    counter_value (run_sequence m l) 1 = (counter_value m 1 + verdict_count true l) % 2 ^ 64 ∧
    counter_value (run_sequence m l) 0 = (counter_value m 0 + verdict_count false l) % 2 ^ 64 ∧
    (∀ (m' : event_counter_map) (inv : invocation),
      (verifier_verdict inv = none → (invoke m' inv).2 = m') ∧
      (verifier_verdict inv = some true →
        counter_value (invoke m' inv).2 1 = (counter_value m' 1 + 1) % 2 ^ 64 ∧
          (invoke m' inv).2.slot0 = m'.slot0) ∧
      (verifier_verdict inv = some false →
        counter_value (invoke m' inv).2 0 = (counter_value m' 0 + 1) % 2 ^ 64 ∧
          (invoke m' inv).2.slot1 = m'.slot1)) := by
  refine ⟨(run_sequence_counters m l hm).1, (run_sequence_counters m l hm).2, ?_⟩
  intro m' inv
  have he := invoke_eq m' inv
  refine ⟨fun h => ?_, fun h => ?_, fun h => ?_⟩
  · rw [h] at he; exact he
  · rw [h] at he
    simp only [] at he
    rw [he]
    exact increment_allowed m'
  · rw [h] at he
    simp only [] at he
    rw [he]
    exact increment_blocked m'

theorem counter_accounting_witness :
    verdict_count true sample_sequence = 1 ∧ verdict_count false sample_sequence = 2 ∧
    counter_value (run_sequence ⟨some (2 ^ 64 - 1), none⟩ sample_sequence) 1
      = (counter_value ⟨some (2 ^ 64 - 1), none⟩ 1 + verdict_count true sample_sequence)
          % 2 ^ 64 ∧
    counter_value (run_sequence ⟨some (2 ^ 64 - 1), none⟩ sample_sequence) 0
      = (counter_value ⟨some (2 ^ 64 - 1), none⟩ 0 + verdict_count false sample_sequence)
          % 2 ^ 64 :=
  ⟨by decide, by decide,
   (counter_accounting ⟨some (2 ^ 64 - 1), none⟩ sample_sequence ⟨by decide, by decide⟩).1,
   (counter_accounting ⟨some (2 ^ 64 - 1), none⟩ sample_sequence ⟨by decide, by decide⟩).2.1⟩

/-- C14 (as stated) fails when a slot wraps: from a blocked slot holding 2^64 - 1, one denied
legacy call (one terminal decision) leaves both slots at 0, so the slots together did not grow
by the number of decisions. -/
theorem counter_accounting_wraps :
    verdict_count true [invocation.legacy (host_env (cstr "bash")) (some ()) 0 64]
      + verdict_count false [invocation.legacy (host_env (cstr "bash")) (some ()) 0 64] = 1 ∧
    run_sequence ⟨some (2 ^ 64 - 1), some 0⟩
      [invocation.legacy (host_env (cstr "bash")) (some ()) 0 64] = ⟨some 0, some 0⟩ ∧
    ¬ (counter_value (run_sequence ⟨some (2 ^ 64 - 1), some 0⟩
          [invocation.legacy (host_env (cstr "bash")) (some ()) 0 64]) 0
        + counter_value (run_sequence ⟨some (2 ^ 64 - 1), some 0⟩
          [invocation.legacy (host_env (cstr "bash")) (some ()) 0 64]) 1
        = counter_value ⟨some (2 ^ 64 - 1), some 0⟩ 0 + counter_value ⟨some (2 ^ 64 - 1), some 0⟩ 1
          + (verdict_count true [invocation.legacy (host_env (cstr "bash")) (some ()) 0 64]
            + verdict_count false [invocation.legacy (host_env (cstr "bash")) (some ()) 0 64])) := by
  decide

/-- C15 (as amended): after `record(allowed)` the addressed slot (key 1 for allowed, key 0 for
blocked) holds (old + 1) mod 2^64, a slot not yet present becoming 1, and the other slot is
unchanged. Hence neither slot's value is smaller than before, except when the addressed slot held
the maximum 2^64 - 1, where it wraps to 0. -/
theorem increment_event_counter_effect (m : event_counter_map) (isAllow : Bool) :
    counter_value (increment_event_counter m isAllow) (if isAllow then 1 else 0)
      = (counter_value m (if isAllow then 1 else 0) + 1) % 2 ^ 64 ∧
    counter_value (increment_event_counter m isAllow) (if isAllow then 0 else 1)
      = counter_value m (if isAllow then 0 else 1) ∧
    (bpf_map_lookup_elem m (if isAllow then 1 else 0) = none →
      counter_value (increment_event_counter m isAllow) (if isAllow then 1 else 0) = 1) ∧
    (counter_value m (if isAllow then 1 else 0) < 2 ^ 64 - 1 →
      counter_value m 0 ≤ counter_value (increment_event_counter m isAllow) 0 ∧
        counter_value m 1 ≤ counter_value (increment_event_counter m isAllow) 1) := by
  have h := counter_value_increment m isAllow
  refine ⟨h.1, h.2, ?_, ?_⟩
  · intro hnone
    cases isAllow <;>
      simp_all [increment_event_counter, counter_value, bpf_map_lookup_elem, bpf_map_update_elem]
  · intro hlt
    have hmod : (counter_value m (if isAllow then 1 else 0) + 1) % 2 ^ 64
        = counter_value m (if isAllow then 1 else 0) + 1 := Nat.mod_eq_of_lt (by omega)
    rw [hmod] at h
    cases isAllow
    · simp only [Bool.false_eq_true, if_false] at h
      omega
    · simp only [if_true] at h
      omega

/-- C15 (as stated) fails at the maximum: with the allowed slot at 2^64 - 1, `record(allowed)`
leaves it at 0, which is smaller than before. -/
theorem increment_event_counter_wraps :
    increment_event_counter ⟨some 7, some (2 ^ 64 - 1)⟩ true = ⟨some 7, some 0⟩ ∧
    counter_value (increment_event_counter ⟨some 7, some (2 ^ 64 - 1)⟩ true) 1
      < counter_value ⟨some 7, some (2 ^ 64 - 1)⟩ 1 := by
  decide

/-! ## Identity matching, verdicts, preconditions, record classification -/

/-- C16 (as amended): for every parent name and every trusted identity, the comparison loop run
on the 16-byte buffer read from the parent name reports a match iff the first (length of the
identity) bytes of the parent name are exactly the identity's bytes: the comparison runs up to
the identity's length, so a parent name shorter than the identity never matches. -/
theorem identity_match_iff (name : List Nat) (id : List Nat) (parent_comm : List Nat)
    (hid : id ∈ trusted_identities)
    (hread : bpf_core_read_str TASK_COMM_LEN (some name) = some parent_comm) :
    comm_match_loop parent_comm (char_array TASK_COMM_LEN id) TASK_COMM_LEN 0 = true ↔
      name.take id.length = id := by
  have hpre : id <+: name ↔ name.take id.length = id := by
    rw [List.prefix_iff_eq_take]
    exact eq_comm
  rw [← hpre]
  simp only [bpf_core_read_str, Option.map_some', Option.some.injEq] at hread
  subst hread
  simp only [trusted_identities, List.mem_cons, List.mem_singleton, List.not_mem_nil,
    or_false] at hid
  rcases hid with rfl | rfl | rfl
  · have e : char_array TASK_COMM_LEN CILIUM_AGENT = CILIUM_AGENT ++ List.replicate 4 0 := by
      decide
    rw [e, comm_match_loop_iff CILIUM_AGENT (by decide) (List.replicate 4 0) (by decide) _
      TASK_COMM_LEN (by decide)]
    exact prefix_read_str_iff CILIUM_AGENT (by decide) name (TASK_COMM_LEN - 1) _ (by decide)
  · have e : char_array TASK_COMM_LEN IP_MASQ = IP_MASQ ++ List.replicate 9 0 := by decide
    rw [e, comm_match_loop_iff IP_MASQ (by decide) (List.replicate 9 0) (by decide) _
      TASK_COMM_LEN (by decide)]
    exact prefix_read_str_iff IP_MASQ (by decide) name (TASK_COMM_LEN - 1) _ (by decide)
  · have e : char_array TASK_COMM_LEN AZURE_CNS = AZURE_CNS ++ List.replicate 7 0 := by decide
    rw [e, comm_match_loop_iff AZURE_CNS (by decide) (List.replicate 7 0) (by decide) _
      TASK_COMM_LEN (by decide)]
    exact prefix_read_str_iff AZURE_CNS (by decide) name (TASK_COMM_LEN - 1) _ (by decide)

theorem identity_match_iff_witness :
    comm_match_loop (cstr "ip-masq-agent" ++ [0, 0, 0]) (char_array TASK_COMM_LEN IP_MASQ)
        TASK_COMM_LEN 0 = true ↔
      (cstr "ip-masq-agent").take IP_MASQ.length = IP_MASQ :=
  identity_match_iff (cstr "ip-masq-agent") IP_MASQ (cstr "ip-masq-agent" ++ [0, 0, 0])
    (by decide) (by decide)

/-- C16 (as stated) fails for a parent name shorter than the identity: "ip-mas" and "ip-masq"
agree on their first min(6, 7) = 6 bytes, and the empty name agrees with every identity on the
first 0 bytes, yet the comparison loop reports no match and the verifier refuses both parents. -/
theorem shorter_name_does_not_match :
    bpf_core_read_str TASK_COMM_LEN (some (cstr "ip-mas"))
      = some (cstr "ip-mas" ++ List.replicate 10 0) ∧
    (cstr "ip-mas").take (min (cstr "ip-mas").length IP_MASQ.length)
      = IP_MASQ.take (min (cstr "ip-mas").length IP_MASQ.length) ∧
    comm_match_loop (cstr "ip-mas" ++ List.replicate 10 0) (char_array TASK_COMM_LEN IP_MASQ)
      TASK_COMM_LEN 0 = false ∧
    is_allowed_parent (host_env (cstr "ip-mas")) = false ∧
    is_allowed_parent (host_env (cstr "")) = false := by
  decide

/-- The verdicts as the code computes them: neither guard denies a task whose parent the ancestry
verifier accepts; every return value is 0 or -EPERM = -1; the legacy guard returns -1 only for a
host-namespace replace-ruleset call (non-null socket, level 0 or 41, option 64) with a parent the
verifier does not accept; the netlink guard returns -1 only in the host namespace, on an
AF_NETLINK / NETLINK_NETFILTER socket, with a parent the verifier does not accept, after reading
a header that parses as a new-rule header. That header is one of the headers the scan read; it
need not lie within the declared length of the buffer. -/
theorem guard_verdicts (env : bpf_env) (m : event_counter_map) (sk : Option sock)
    (skb : Option sk_buff) (sock : Option socket) (level optname : Int) :
    (is_allowed_parent env = true →
      (iptables_legacy_block env m sock level optname).1 = 0 ∧
        (iptables_nftables_block env m sk skb).ret = 0) ∧
    ((iptables_legacy_block env m sock level optname).1 = 0 ∨
      (iptables_legacy_block env m sock level optname).1 = -1) ∧
    ((iptables_nftables_block env m sk skb).ret = 0 ∨
      (iptables_nftables_block env m sk skb).ret = -1) ∧
    ((iptables_legacy_block env m sock level optname).1 = -1 →
      is_host_ns env = true ∧ sock ≠ none ∧ (level = 0 ∨ level = 41) ∧ optname = 64 ∧
        is_allowed_parent env = false) ∧
    ((iptables_nftables_block env m sk skb).ret = -1 →
      is_host_ns env = true ∧
        (∃ k, sk = some k ∧ (k.sk_family.getD 0) % 2 ^ 16 = AF_NETLINK ∧
          (k.sk_protocol.getD 0) % 2 ^ 16 = NETLINK_NETFILTER) ∧
        reads_newrule skb (iptables_nftables_block env m sk skb).reads = true ∧
        is_allowed_parent env = false) := by
  have hleg : iptables_legacy_block env m sock level optname
      = (if sock ≠ none ∧ (level = 0 ∨ level = 41) ∧ optname = 64 ∧ is_host_ns env = true
          then (if is_allowed_parent env then (0, increment_event_counter m true)
            else (-1, increment_event_counter m false))
          else (0, m)) := by
    unfold iptables_legacy_block
    by_cases hs : sock = none
    · simp [hs]
    by_cases hl : level = 0 ∨ level = 41
    · by_cases hopt : optname = 64
      · cases hh : is_host_ns env <;> cases hp : is_allowed_parent env <;>
          simp [hs, hl, hopt, hh, hp, IPPROTO_IP, IPPROTO_IP6, IPT_SO_SET_REPLACE, EPERM]
      · simp [hs, hopt, IPT_SO_SET_REPLACE]
    · simp [hs, hl, IPPROTO_IP, IPPROTO_IP6]
  have ho := nftables_block_outcome env m sk skb
  have hnft : ((iptables_nftables_block env m sk skb).ret = 0 ∧
        (reads_newrule skb (iptables_nftables_block env m sk skb).reads = true →
          is_allowed_parent env = true)) ∨
      ((iptables_nftables_block env m sk skb).ret = -1 ∧ is_host_ns env = true ∧
        reads_newrule skb (iptables_nftables_block env m sk skb).reads = true ∧
        is_allowed_parent env = false) := by
    cases hr : reads_newrule skb (iptables_nftables_block env m sk skb).reads
    · exact Or.inl ⟨(ho.1 hr).1, fun h => by cases h⟩
    · have h := ho.2 hr
      cases hp : is_allowed_parent env
      · rw [hp] at h
        exact Or.inr ⟨by simpa [EPERM] using h.2.1, h.1, rfl, rfl⟩
      · rw [hp] at h
        exact Or.inl ⟨by simpa using h.2.1, fun _ => rfl⟩
  have hsock : (iptables_nftables_block env m sk skb).ret = -1 →
      ∃ k, sk = some k ∧ (k.sk_family.getD 0) % 2 ^ 16 = AF_NETLINK ∧
        (k.sk_protocol.getD 0) % 2 ^ 16 = NETLINK_NETFILTER := by
    intro hret
    rcases nftables_block_full_cases env m sk skb with h | ⟨k, s, d, l, hk, _, hf, hp, _⟩
    · rw [h] at hret; cases hret
    · exact ⟨k, hk, hf, hp⟩
  refine ⟨fun hp => ⟨?_, ?_⟩, ?_, ?_, ?_, ?_⟩
  · rw [hleg, hp]; split <;> rfl
  · rcases hnft with h | h
    · exact h.1
    · rw [hp] at h; cases h.2.2.2
  · rw [hleg]
    split
    · split
      · exact Or.inl rfl
      · exact Or.inr rfl
    · exact Or.inl rfl
  · rcases hnft with h | h
    · exact Or.inl h.1
    · exact Or.inr h.1
  · rw [hleg]
    split
    · rename_i hc
      split
      · intro h; cases h
      · rename_i hp
        intro _
        exact ⟨hc.2.2.2, hc.1, hc.2.1, hc.2.2.1, by simpa using hp⟩
    · intro h; cases h
  · intro hret
    rcases hnft with h | h
    · rw [h.1] at hret; cases hret
    · exact ⟨h.2.1, hsock hret, h.2.2.1, h.2.2.2⟩

theorem type_split (t : Nat) :
    (t % 2 ^ 16) >>> 8 % 2 ^ 8 = t % 65536 / 256 ∧ ((t % 2 ^ 16) &&& 0xFF) % 2 ^ 8 = t % 256 := by
  constructor
  · rw [Nat.shiftRight_eq_div_pow]
    norm_num
    omega
  · have h : (0xFF : Nat) = 2 ^ 8 - 1 := by norm_num
    rw [h, Nat.and_pow_two_sub_one_eq_mod]
    norm_num

theorem is_newrule_iff (nlh : nlmsghdr) : is_newrule nlh ↔ nlh.nlmsg_type % 65536 = 2566 := by
  unfold is_newrule
  rw [(type_split nlh.nlmsg_type).1, (type_split nlh.nlmsg_type).2]
  simp only [NFNL_SUBSYS_NFTABLES, NFT_MSG_NEWRULE]
  omega

/-- C18: when the socket or the buffer descriptor is null, or the socket's family is not
AF_NETLINK (16), or its protocol is not NETLINK_NETFILTER (12), the netlink guard returns 0,
leaves the counter map as it was and reads no header, whatever the namespace, the parent and the
buffer contents. -/
theorem nftables_block_preconditions (env : bpf_env) (m : event_counter_map) (sk : Option sock)
    (skb : Option sk_buff)
    (h : sk = none ∨ skb = none ∨
      ∃ k, sk = some k ∧ ((k.sk_family.getD 0) % 2 ^ 16 ≠ AF_NETLINK ∨
        (k.sk_protocol.getD 0) % 2 ^ 16 ≠ NETLINK_NETFILTER)) :
    (iptables_nftables_block env m sk skb).ret = 0 ∧
      (iptables_nftables_block env m sk skb).counters = m ∧
      (iptables_nftables_block env m sk skb).reads = [] := by
  have hr : iptables_nftables_block env m sk skb = ⟨0, m, []⟩ := by
    rcases nftables_block_full_cases env m sk skb with hc | ⟨k, s, d, l, hk, hs, hf, hp, _⟩
    · exact hc
    · exfalso
      rcases h with h | h | ⟨k', hk', h⟩
      · rw [hk] at h; cases h
      · rw [hs] at h; cases h
      · rw [hk] at hk'
        cases hk'
        rcases h with h | h
        · exact h hf
        · exact h hp
  rw [hr]
  exact ⟨rfl, rfl, rfl⟩

theorem nftables_block_preconditions_witness :
    (iptables_nftables_block (host_env (cstr "bash")) ⟨some 3, some 5⟩
        (some ⟨some AF_NETLINK, some 0⟩) (some skb_newrule_second)).ret = 0 ∧
      (iptables_nftables_block (host_env (cstr "bash")) ⟨some 3, some 5⟩
        (some ⟨some AF_NETLINK, some 0⟩) (some skb_newrule_second)).counters = ⟨some 3, some 5⟩ ∧
      (iptables_nftables_block (host_env (cstr "bash")) ⟨some 3, some 5⟩
        (some ⟨some AF_NETLINK, some 0⟩) (some skb_newrule_second)).reads = [] :=
  nftables_block_preconditions (host_env (cstr "bash")) ⟨some 3, some 5⟩
    (some ⟨some AF_NETLINK, some 0⟩) (some skb_newrule_second)
    (Or.inr (Or.inr ⟨⟨some AF_NETLINK, some 0⟩, rfl, Or.inr (by decide)⟩))

/-- C19: for every 16-bit value t of the type field, the parser's subsystem id is the high byte
t / 256 and its command id is the low byte t mod 256; the record counts as a new-rule message iff
t = 10 * 256 + 6 = 2566. A header of that type read by the scan makes it consult the ancestry
verifier and return its verdict; a header of any other type makes it skip the record, advancing
the cursor and reducing the remaining length by the declared record length. -/
theorem record_classification (nlh : nlmsghdr) (ht : nlh.nlmsg_type < 2 ^ 16) :
    (nlh.nlmsg_type % 2 ^ 16) >>> 8 % 2 ^ 8 = nlh.nlmsg_type / 256 ∧
    ((nlh.nlmsg_type % 2 ^ 16) &&& 0xFF) % 2 ^ 8 = nlh.nlmsg_type % 256 ∧
    (is_newrule nlh ↔ nlh.nlmsg_type = 10 * 256 + 6) ∧
    (∀ (env : bpf_env) (mem : Nat → Option nlmsghdr) (fuel data skb_len : Nat)
        (m : event_counter_map) (reads : List Nat), 16 ≤ skb_len → mem data = some nlh →
      nl_scan env mem (fuel + 1) data skb_len m reads
        = if nlh.nlmsg_type = 2566 then
            (if is_allowed_parent env then ⟨0, increment_event_counter m true, reads ++ [data]⟩
              else ⟨-EPERM, increment_event_counter m false, reads ++ [data]⟩)
          else nl_scan env mem fuel (data + nlh.nlmsg_len % 2 ^ 32)
            ((skb_len + 2 ^ 32 - nlh.nlmsg_len % 2 ^ 32) % 2 ^ 32) m (reads ++ [data])) := by
  have hsplit := type_split nlh.nlmsg_type
  have hmod : nlh.nlmsg_type % 65536 = nlh.nlmsg_type := Nat.mod_eq_of_lt (by omega)
  have hiff : is_newrule nlh ↔ nlh.nlmsg_type = 2566 := by
    rw [is_newrule_iff, hmod]
  refine ⟨?_, hsplit.2, ?_, ?_⟩
  · rw [hsplit.1, hmod]
  · rw [hiff]
  · intro env mem fuel data skb_len m reads hlen hmem
    by_cases hnew : is_newrule nlh
    · rw [if_pos (hiff.1 hnew)]
      exact nl_scan_newrule env mem fuel data skb_len m reads nlh hlen hmem hnew
    · rw [if_neg (fun h => hnew (hiff.2 h))]
      exact nl_scan_skip env mem fuel data skb_len m reads nlh hlen hmem hnew

theorem record_classification_witness :
    (2566 % 2 ^ 16) >>> 8 % 2 ^ 8 = 2566 / 256 ∧ 2566 / 256 = NFNL_SUBSYS_NFTABLES ∧
    ((2566 % 2 ^ 16) &&& 0xFF) % 2 ^ 8 = 2566 % 256 ∧ 2566 % 256 = NFT_MSG_NEWRULE ∧
    (is_newrule (hdr 20 2566) ↔ (2566 : Nat) = 10 * 256 + 6) :=
  ⟨(record_classification (hdr 20 2566) (by decide)).1, by decide,
   (record_classification (hdr 20 2566) (by decide)).2.1, by decide,
   (record_classification (hdr 20 2566) (by decide)).2.2.1⟩

/-- C20: on a host-namespace send over an AF_NETLINK / NETLINK_NETFILTER socket with a declared
length of at least 16 whose first record is not a new-rule message and declares a total length
of 0, an iteration leaves the cursor at offset 0 and the remaining length as it was; all four
iterations read the header at offset 0 and the guard returns 0 with the counter map unchanged,
whatever the parent and whatever else the buffer holds. -/
theorem nftables_block_stuck_cursor (env : bpf_env) (m : event_counter_map) (k : sock)
    (s : sk_buff) (d l : Nat) (first : nlmsghdr)
    (hfam : k.sk_family = some AF_NETLINK) (hproto : k.sk_protocol = some NETLINK_NETFILTER)
    (hhost : is_host_ns env = true)
    (hdata : s.data = some d) (hd : d ≠ 0) (hlen : s.len = some l) (h16 : 16 ≤ l % 2 ^ 32)
    (hfirst : s.mem 0 = some first) (hnot : ¬ is_newrule first) (hzero : first.nlmsg_len = 0) :
    iptables_nftables_block env m (some k) (some s) = ⟨0, m, [0, 0, 0, 0]⟩ ∧
    (∀ (fuel : Nat) (reads : List Nat),
      nl_scan env s.mem (fuel + 1) 0 (l % 2 ^ 32) m reads
        = nl_scan env s.mem fuel 0 (l % 2 ^ 32) m (reads ++ [0])) := by
  have hstep : ∀ (fuel : Nat) (reads : List Nat),
      nl_scan env s.mem (fuel + 1) 0 (l % 2 ^ 32) m reads
        = nl_scan env s.mem fuel 0 (l % 2 ^ 32) m (reads ++ [0]) := by
    intro fuel reads
    rw [nl_scan_skip env s.mem fuel 0 (l % 2 ^ 32) m reads first h16 hfirst hnot, hzero]
    have hlt : l % 2 ^ 32 < 2 ^ 32 := Nat.mod_lt _ (by norm_num)
    have e : (l % 2 ^ 32 + 2 ^ 32 - 0 % 2 ^ 32) % 2 ^ 32 = l % 2 ^ 32 := by
      rw [Nat.zero_mod, Nat.sub_zero, Nat.add_mod_right, Nat.mod_mod]
    rw [e, Nat.zero_mod, Nat.add_zero]
  refine ⟨?_, hstep⟩
  rw [nftables_block_active env m k s d l hfam hproto hhost hdata hd hlen]
  show nl_scan env s.mem (3 + 1) 0 (l % 2 ^ 32) m [] = _
  rw [hstep 3, hstep 2, hstep 1, hstep 0]
  rfl

theorem nftables_block_stuck_cursor_witness :
    skb_zero_length_first.mem 16 = some (hdr 20 2566) ∧ is_newrule (hdr 20 2566) ∧
    iptables_nftables_block (host_env (cstr "bash")) ⟨some 3, some 5⟩ (some nfnl_sock)
      (some skb_zero_length_first) = ⟨0, ⟨some 3, some 5⟩, [0, 0, 0, 0]⟩ :=
  ⟨by decide, by decide,
   (nftables_block_stuck_cursor (host_env (cstr "bash")) ⟨some 3, some 5⟩ nfnl_sock
    skb_zero_length_first 1 36 (hdr 0 16) rfl rfl (by decide) rfl (by decide) rfl (by decide)
    (by decide) (by decide) rfl).1⟩

/-- C17 (the code at the failing input): a host-namespace send of declared length 20 whose only
record has type 16 and declares 24 bytes holds no new-rule header within its 20 bytes, so it is
not a subject operation; yet the scan reads the bytes behind the buffer, takes them for a
new-rule header and the guard returns -EPERM = -1 and counts the send as blocked. -/
theorem nftables_block_denies_non_subject_send :
    (skb_overlong_record 20 2566).len = some 20 ∧
    (∀ o, o + 16 ≤ 20 → newrule_at (skb_overlong_record 20 2566).mem o = false) ∧
    (iptables_nftables_block (host_env (cstr "bash")) ⟨some 3, some 5⟩ (some nfnl_sock)
        (some (skb_overlong_record 20 2566))).ret = -1 ∧
    (iptables_nftables_block (host_env (cstr "bash")) ⟨some 3, some 5⟩ (some nfnl_sock)
        (some (skb_overlong_record 20 2566))).counters = ⟨some 4, some 5⟩ ∧
    (iptables_nftables_block (host_env (cstr "bash")) ⟨some 3, some 5⟩ (some nfnl_sock)
        (some (skb_overlong_record 20 2566))).reads = [0, 24] := by
  refine ⟨by decide, ?_, by decide, by decide, by decide⟩
  intro o ho
  have h5 : o < 5 := by omega
  interval_cases o <;> decide

end BlockIptables
